import Mathlib

set_option exponentiation.threshold 2000

/-!
Verification development for the math-mcp-learning-server repository
(src/math_mcp/server.py).  The Python source is embedded shallowly:

* Python floats are modelled by `PyFloat`: an exact rational for finite
  values plus `inf`, `ninf` and `nan`.  Finite arithmetic is exact rational
  arithmetic (IEEE rounding and signed zeros are not modelled); results
  whose magnitude reaches `2^1024` overflow to the signed infinity, as
  Python float arithmetic does.
* The fragment of Python `eval` reachable through the character filter of
  `safe_eval_expression` (digits, `+ - * / . ( ) e` and letters) is
  embedded as a tokenizer, a recursive-descent expression grammar and an
  evaluator over Python values (ints, floats, the `math` module object and
  the callable functions reachable from the restricted globals).
* Transcendental function applications are modelled at their exact rational
  points (for example `sin 0`, `log 1`, square roots of rational squares);
  elsewhere the model returns a modelling error.  No claim below depends on
  an irrational value.
-/

namespace MathMCP

/-- ASCII letter test; models Python `str.isalpha` restricted to ASCII
(the inputs appearing in the claims are ASCII). -/
def isAsciiAlpha (c : Char) : Bool :=
  (('a' ≤ c) && (c ≤ 'z')) || (('A' ≤ c) && (c ≤ 'Z'))

/-- ASCII digit test. -/
def isDigit (c : Char) : Bool :=
  ('0' ≤ c) && (c ≤ '9')

/-- Numeric value of an ASCII digit. -/
def digitVal (c : Char) : Nat :=
  if c = '0' then 0 else if c = '1' then 1 else if c = '2' then 2 else if c = '3' then 3
  else if c = '4' then 4 else if c = '5' then 5 else if c = '6' then 6 else if c = '7' then 7
  else if c = '8' then 8 else 9

/-- Lower-case an ASCII character; models Python `str.lower` on the unit
codes used by the conversion functions. -/
def lowerChar (c : Char) : Char :=
  if ('A' ≤ c) && (c ≤ 'Z') then Char.ofNat (c.toNat + 32) else c

/-- Models Python `str.lower` (ASCII). -/
def pyLower (s : String) : String := ⟨s.data.map lowerChar⟩

/-- Models Python `expression.replace(" ", "")`. -/
def stripSpaces (s : String) : String := ⟨s.data.filter (fun c => c ≠ ' ')⟩

/-- Prefix test on character lists. -/
def prefixMatches : List Char → List Char → Bool
  | [], _ => true
  | _ :: _, [] => false
  | p :: ps, c :: cs => (p = c) && prefixMatches ps cs

/-- Substring containment on character lists (models Python `pat in s`),
with explicit fuel so terms reduce definitionally. -/
def containsAux (pat : List Char) : Nat → List Char → Bool
  | _, [] => prefixMatches pat []
  | 0, _ => false
  | n + 1, c :: cs => prefixMatches pat (c :: cs) || containsAux pat n cs

/-- Models Python `pat in s`. -/
def containsSubstr (s pat : String) : Bool :=
  containsAux pat.data s.data.length s.data

/-- Replace every (leftmost, non-overlapping) occurrence of `pat` by `rep`;
models Python `str.replace`.  Fueled for definitional reduction. -/
def replaceAuxList (pat rep : List Char) : Nat → List Char → List Char
  | _, [] => []
  | 0, s => s
  | n + 1, c :: cs =>
      if prefixMatches pat (c :: cs) ∧ pat ≠ [] then
        rep ++ replaceAuxList pat rep n ((c :: cs).drop pat.length)
      else
        c :: replaceAuxList pat rep n cs

/-- Models Python `s.replace(pat, rep)` (for nonempty `pat`). -/
def strReplace (s pat rep : String) : String :=
  ⟨replaceAuxList pat.data rep.data s.data.length s.data⟩

/-- Maximal runs of ASCII letters in a string.  This definition follows the
specification wording ("any alphabetic run") and is used to state the
validation rule of the spec; the Python source has no corresponding code. -/
def alphaRunsAux : Nat → List Char → List Char → List String
  | _, acc, [] => if acc = [] then [] else [⟨acc.reverse⟩]
  | 0, acc, _ => if acc = [] then [] else [⟨acc.reverse⟩]
  | n + 1, acc, c :: cs =>
      if isAsciiAlpha c then alphaRunsAux n (c :: acc) cs
      else if acc = [] then alphaRunsAux n [] cs
      else ⟨acc.reverse⟩ :: alphaRunsAux n [] cs

/-- Maximal alphabetic runs of a string, in order of appearance. -/
def alphaRuns (s : String) : List String :=
  alphaRunsAux s.data.length [] s.data

/-- The function-name allowlist of `safe_eval_expression`. -/
def allowedFunctions : List String :=
  ["sin", "cos", "tan", "log", "sqrt", "abs", "pow"]

/-- The character allowlist of `safe_eval_expression`. -/
def allowedChars : List Char := "0123456789+-*/.()e".data

/-- Model of a Python float: an exact rational, or one of the non-finite
values.  Finite arithmetic is exact (no rounding); magnitudes reaching
`2^1024` overflow to infinity as Python floats do. -/
inductive PyFloat where
  | finite (q : ℚ)
  | inf
  | ninf
  | nan
deriving DecidableEq

/-- Whether a Python float value is finite. -/
def PyFloat.isFinite : PyFloat → Bool
  | .finite _ => true
  | _ => false

/-- Overflow threshold of IEEE double precision. -/
def floatMax : ℚ := 2 ^ 1024

/-- Clamp an exact rational into the float model: overflow to the signed
infinity past `2^1024` (rounding below the threshold is not modelled). -/
def ratToFloat (q : ℚ) : PyFloat :=
  if floatMax ≤ q then .inf
  else if q ≤ -floatMax then .ninf
  else .finite q

/-- Overflow threshold as a natural number (for the integer-level checks). -/
def floatMaxNat : ℕ := 2 ^ 1024

/-- The digits data of a scanned numeric literal: the value is
`mant / 10 ^ fracLen * 10 ^ ex`, and `isFloat` records whether the literal
is a float literal (it had a dot or an exponent). -/
structure NumLit where
  mant : ℕ
  fracLen : ℕ
  ex : ℤ
  isFloat : Bool
deriving DecidableEq

/-- Conversion of a nonnegative numeric literal to a Python float:
literals overflow silently to `inf` (for example `1e999`). -/
def litToFloat (l : NumLit) : PyFloat :=
  if l.fracLen ≤ l.ex.toNat ∧ 0 ≤ l.ex then
    let v : ℕ := l.mant * 10 ^ (l.ex.toNat - l.fracLen)
    if floatMaxNat ≤ v then .inf else .finite (v : ℚ)
  else
    let d : ℕ := 10 ^ ((l.fracLen : ℤ) - l.ex).toNat
    if floatMaxNat * d ≤ l.mant then .inf else .finite ((l.mant : ℚ) / (d : ℚ))

/-- Model of a Python number: `int` (unbounded) or `float`. -/
inductive PyNum where
  | intVal (n : ℤ)
  | floatVal (f : PyFloat)
deriving DecidableEq

/-- Conversion `float(int)`: raises OverflowError for ints beyond the float
range (unlike literals, which overflow to `inf`). -/
def intToFloat (n : ℤ) : Except String PyFloat :=
  if floatMaxNat ≤ n.natAbs then
    Except.error "OverflowError: int too large to convert to float"
  else
    Except.ok (.finite (n : ℚ))

/-- Promote a Python number to a float (used by mixed arithmetic and by
`float(...)`). -/
def numToFloat : PyNum → Except String PyFloat
  | .intVal n => intToFloat n
  | .floatVal f => Except.ok f

/-- Float addition. -/
def fadd : PyFloat → PyFloat → PyFloat
  | .nan, _ => .nan
  | _, .nan => .nan
  | .inf, .ninf => .nan
  | .ninf, .inf => .nan
  | .inf, _ => .inf
  | _, .inf => .inf
  | .ninf, _ => .ninf
  | _, .ninf => .ninf
  | .finite a, .finite b => ratToFloat (a + b)

/-- Float negation. -/
def fneg : PyFloat → PyFloat
  | .finite a => .finite (-a)
  | .inf => .ninf
  | .ninf => .inf
  | .nan => .nan

/-- Float subtraction. -/
def fsub (x y : PyFloat) : PyFloat := fadd x (fneg y)

/-- Float multiplication. -/
def fmul : PyFloat → PyFloat → PyFloat
  | .nan, _ => .nan
  | _, .nan => .nan
  | .inf, .inf => .inf
  | .inf, .ninf => .ninf
  | .ninf, .inf => .ninf
  | .ninf, .ninf => .inf
  | .inf, .finite b => if b = 0 then .nan else if 0 < b then .inf else .ninf
  | .finite a, .inf => if a = 0 then .nan else if 0 < a then .inf else .ninf
  | .ninf, .finite b => if b = 0 then .nan else if 0 < b then .ninf else .inf
  | .finite a, .ninf => if a = 0 then .nan else if 0 < a then .ninf else .inf
  | .finite a, .finite b => ratToFloat (a * b)

/-- Float true division.  Python raises ZeroDivisionError on a zero
divisor (it does not produce an IEEE infinity); signed zeros are not
modelled. -/
def fdiv : PyFloat → PyFloat → Except String PyFloat
  | .nan, _ => Except.ok .nan
  | _, .nan => Except.ok .nan
  | .inf, .inf => Except.ok .nan
  | .inf, .ninf => Except.ok .nan
  | .ninf, .inf => Except.ok .nan
  | .ninf, .ninf => Except.ok .nan
  | .inf, .finite b =>
      if b = 0 then Except.error "ZeroDivisionError: float division by zero"
      else Except.ok (if 0 < b then .inf else .ninf)
  | .ninf, .finite b =>
      if b = 0 then Except.error "ZeroDivisionError: float division by zero"
      else Except.ok (if 0 < b then .ninf else .inf)
  | .finite _, .inf => Except.ok (.finite 0)
  | .finite _, .ninf => Except.ok (.finite 0)
  | .finite a, .finite b =>
      if b = 0 then Except.error "ZeroDivisionError: float division by zero"
      else Except.ok (ratToFloat (a / b))

/-- Float floor division (Python `//`).  A zero divisor raises
ZeroDivisionError; non-finite corner cases follow CPython (signed zeros
are not modelled). -/
def ffloordiv (x y : PyFloat) : Except String PyFloat :=
  match y with
  | .finite b =>
      if b = 0 then Except.error "ZeroDivisionError: float floor division by zero"
      else
        match x with
        | .nan => Except.ok .nan
        | .inf => Except.ok .nan
        | .ninf => Except.ok .nan
        | .finite a => Except.ok (.finite ((⌊a / b⌋ : ℤ) : ℚ))
  | .nan => Except.ok .nan
  | .inf =>
      match x with
      | .finite a => Except.ok (.finite (if 0 ≤ a then 0 else -1))
      | _ => Except.ok .nan
  | .ninf =>
      match x with
      | .finite a => Except.ok (.finite (if a = 0 then 0 else if 0 < a then -1 else 0))
      | _ => Except.ok .nan

/-- Whether a float is an odd integer (used by the power corner cases). -/
def PyFloat.isOddInt : PyFloat → Bool
  | .finite q => q.den = 1 && q.num % 2 ≠ 0
  | _ => false

/-- Float power (Python `**` on floats), following CPython `float_pow`.
A negative finite base with a non-integral exponent yields a complex
number in Python, which the enclosing `float(...)` call then rejects; the
model reports it as an error directly.  Irrational results of fractional
powers are not modelled (no claim depends on them). -/
def fpowF (x y : PyFloat) : Except String PyFloat :=
  match y with
  | .finite e =>
      if e = 0 then Except.ok (.finite 1)
      else if x = .finite 1 then Except.ok (.finite 1)
      else
        match x with
        | .nan => Except.ok .nan
        | .inf => Except.ok (if 0 < e then .inf else .finite 0)
        | .ninf =>
            if 0 < e then
              Except.ok (if PyFloat.isOddInt (.finite e) then .ninf else .inf)
            else Except.ok (.finite 0)
        | .finite a =>
            if a = 0 then
              if 0 < e then Except.ok (.finite 0)
              else Except.error "ZeroDivisionError: zero cannot be raised to a negative power"
            else if e.den = 1 then Except.ok (ratToFloat (a ^ e.num))
            else if a < 0 then
              Except.error "complex result of fractional power of a negative base"
            else Except.error "irrational result of fractional power not modelled"
  | .nan => if x = .finite 1 then Except.ok (.finite 1) else Except.ok .nan
  | .inf =>
      match x with
      | .nan => Except.ok .nan
      | .inf => Except.ok .inf
      | .ninf => Except.ok .inf
      | .finite a =>
          if a = 1 ∨ a = -1 then Except.ok (.finite 1)
          else if 1 < a ∨ a < -1 then Except.ok .inf
          else Except.ok (.finite 0)
  | .ninf =>
      match x with
      | .nan => Except.ok .nan
      | .inf => Except.ok (.finite 0)
      | .ninf => Except.ok (.finite 0)
      | .finite a =>
          if a = 1 ∨ a = -1 then Except.ok (.finite 1)
          else if 1 < a ∨ a < -1 then Except.ok (.finite 0)
          else if a = 0 then Except.error "ZeroDivisionError: zero cannot be raised to a negative power"
          else Except.ok .inf

/-- Float absolute value. -/
def fabsF : PyFloat → PyFloat
  | .finite q => .finite |q|
  | .inf => .inf
  | .ninf => .inf
  | .nan => .nan

/-- Exact rational square root, when it exists. -/
def ratSqrt (q : ℚ) : Option ℚ :=
  let n := Nat.sqrt q.num.toNat
  let d := Nat.sqrt q.den
  if (n * n = q.num.toNat) && (d * d = q.den) then some ((n : ℚ) / (d : ℚ)) else none

/-- The callable values reachable from the restricted globals of
`safe_eval_expression` (`abs` from the builtins dictionary and the
attributes of the `math` module that the model covers). -/
inductive PyFn where
  | sin | cos | tan | log | sqrt | abs | pow | factorial
deriving DecidableEq

/-- Model of a Python value produced by the reachable `eval` fragment:
a number, the `math` module object, or a callable. -/
inductive PyVal where
  | num (v : PyNum)
  | mathModule
  | func (f : PyFn)
deriving DecidableEq

/-- Coerce a value to a number, as Python arithmetic does (TypeError for
modules and functions). -/
def asNum : PyVal → Except String PyNum
  | .num v => Except.ok v
  | _ => Except.error "TypeError: unsupported operand type(s)"

/-- Python `+` on numbers. -/
def addNum : PyNum → PyNum → Except String PyNum
  | .intVal a, .intVal b => Except.ok (.intVal (a + b))
  | x, y => do
      let fx ← numToFloat x
      let fy ← numToFloat y
      Except.ok (.floatVal (fadd fx fy))

/-- Python `-` on numbers. -/
def subNum : PyNum → PyNum → Except String PyNum
  | .intVal a, .intVal b => Except.ok (.intVal (a - b))
  | x, y => do
      let fx ← numToFloat x
      let fy ← numToFloat y
      Except.ok (.floatVal (fsub fx fy))

/-- Python `*` on numbers. -/
def mulNum : PyNum → PyNum → Except String PyNum
  | .intVal a, .intVal b => Except.ok (.intVal (a * b))
  | x, y => do
      let fx ← numToFloat x
      let fy ← numToFloat y
      Except.ok (.floatVal (fmul fx fy))

/-- Python `/` (true division) on numbers. -/
def divNum : PyNum → PyNum → Except String PyNum
  | .intVal a, .intVal b =>
      if b = 0 then Except.error "ZeroDivisionError: division by zero"
      else
        let q : ℚ := (a : ℚ) / (b : ℚ)
        if floatMax ≤ q ∨ q ≤ -floatMax then
          Except.error "OverflowError: integer division result too large for a float"
        else Except.ok (.floatVal (.finite q))
  | x, y => do
      let fx ← numToFloat x
      let fy ← numToFloat y
      let r ← fdiv fx fy
      Except.ok (.floatVal r)

/-- Python `//` (floor division) on numbers. -/
def floordivNum : PyNum → PyNum → Except String PyNum
  | .intVal a, .intVal b =>
      if b = 0 then Except.error "ZeroDivisionError: integer division or modulo by zero"
      else Except.ok (.intVal (Int.fdiv a b))
  | x, y => do
      let fx ← numToFloat x
      let fy ← numToFloat y
      let r ← ffloordiv fx fy
      Except.ok (.floatVal r)

/-- Python `**` on numbers. -/
def powNum : PyNum → PyNum → Except String PyNum
  | .intVal a, .intVal b =>
      if 0 ≤ b then Except.ok (.intVal (a ^ b.toNat))
      else if a = 0 then
        Except.error "ZeroDivisionError: zero cannot be raised to a negative power"
      else Except.ok (.floatVal (.finite ((a : ℚ) ^ b)))
  | x, y => do
      let fx ← numToFloat x
      let fy ← numToFloat y
      let r ← fpowF fx fy
      Except.ok (.floatVal r)

/-- Python unary minus on numbers. -/
def negNum : PyNum → PyNum
  | .intVal a => .intVal (-a)
  | .floatVal f => .floatVal (fneg f)

/-- Application of `math.sin` (modelled at its exact rational point). -/
def sinF : PyFloat → Except String PyFloat
  | .nan => Except.ok .nan
  | .inf => Except.error "ValueError: math domain error"
  | .ninf => Except.error "ValueError: math domain error"
  | .finite q =>
      if q = 0 then Except.ok (.finite 0)
      else Except.error "irrational value of sin not modelled"

/-- Application of `math.cos`. -/
def cosF : PyFloat → Except String PyFloat
  | .nan => Except.ok .nan
  | .inf => Except.error "ValueError: math domain error"
  | .ninf => Except.error "ValueError: math domain error"
  | .finite q =>
      if q = 0 then Except.ok (.finite 1)
      else Except.error "irrational value of cos not modelled"

/-- Application of `math.tan`. -/
def tanF : PyFloat → Except String PyFloat
  | .nan => Except.ok .nan
  | .inf => Except.error "ValueError: math domain error"
  | .ninf => Except.error "ValueError: math domain error"
  | .finite q =>
      if q = 0 then Except.ok (.finite 0)
      else Except.error "irrational value of tan not modelled"

/-- Application of `math.log` (natural logarithm; domain error at and
below zero, as in Python). -/
def logF : PyFloat → Except String PyFloat
  | .nan => Except.ok .nan
  | .inf => Except.ok .inf
  | .ninf => Except.error "ValueError: math domain error"
  | .finite q =>
      if q ≤ 0 then Except.error "ValueError: math domain error"
      else if q = 1 then Except.ok (.finite 0)
      else Except.error "irrational value of log not modelled"

/-- Application of `math.sqrt` (domain error below zero; exact rational
square roots modelled). -/
def sqrtF : PyFloat → Except String PyFloat
  | .nan => Except.ok .nan
  | .inf => Except.ok .inf
  | .ninf => Except.error "ValueError: math domain error"
  | .finite q =>
      if q < 0 then Except.error "ValueError: math domain error"
      else
        match ratSqrt q with
        | some r => Except.ok (.finite r)
        | none => Except.error "irrational square root not modelled"

/-- Call a reachable function on an argument.  `pow` always fails because
a one-argument call is a TypeError and the comma character needed for a
two-argument call is rejected by the character filter. -/
def applyFn (g : PyFn) (v : PyVal) : Except String PyVal := do
  let nv ← asNum v
  match g with
  | .abs =>
      match nv with
      | .intVal n => Except.ok (.num (.intVal |n|))
      | .floatVal f => Except.ok (.num (.floatVal (fabsF f)))
  | .factorial =>
      match nv with
      | .intVal n =>
          if n < 0 then Except.error "ValueError: factorial of a negative value"
          else Except.ok (.num (.intVal (Nat.factorial n.toNat)))
      | .floatVal _ => Except.error "TypeError: factorial argument must be an integer"
  | .pow => Except.error "TypeError: pow expected 2 arguments, got 1"
  | .sin => do let f ← numToFloat nv; let r ← sinF f; Except.ok (.num (.floatVal r))
  | .cos => do let f ← numToFloat nv; let r ← cosF f; Except.ok (.num (.floatVal r))
  | .tan => do let f ← numToFloat nv; let r ← tanF f; Except.ok (.num (.floatVal r))
  | .log => do let f ← numToFloat nv; let r ← logF f; Except.ok (.num (.floatVal r))
  | .sqrt => do let f ← numToFloat nv; let r ← sqrtF f; Except.ok (.num (.floatVal r))

/-- Attribute lookup on the `math` module object.  The attributes the
substitution step can introduce, plus `factorial` and similar names, are
modelled; other names (whether or not they exist on the real module) are
reported as errors. -/
def mathAttr (f : String) : Except String PyVal :=
  if f = "sin" then Except.ok (.func .sin)
  else if f = "cos" then Except.ok (.func .cos)
  else if f = "tan" then Except.ok (.func .tan)
  else if f = "log" then Except.ok (.func .log)
  else if f = "sqrt" then Except.ok (.func .sqrt)
  else if f = "pow" then Except.ok (.func .pow)
  else if f = "factorial" then Except.ok (.func .factorial)
  else Except.error ("AttributeError or unmodelled math attribute: " ++ f)

/-- Lexical tokens of the reachable Python expression fragment. -/
inductive Token where
  | num (l : NumLit)
  | name (s : String)
  | plus | minus | star | slash | dstar | dslash | lparen | rparen | dot
deriving DecidableEq

/-- Numeric value of a digit list (most significant first). -/
def digitsVal (ds : List Char) : Nat :=
  ds.foldl (fun a c => 10 * a + digitVal c) 0

/-- Scan one Python numeric literal (called on input starting with a digit,
or with a dot followed by a digit).  Returns its exact value, whether it is
a float literal, and the remaining input.  Integer literals with leading
zeros are rejected, as in Python 3. -/
def scanNumber (cs : List Char) : Except String (NumLit × List Char) :=
  let ip := cs.takeWhile isDigit
  let r1 := cs.dropWhile isDigit
  let hasDot := match r1 with
    | '.' :: _ => true
    | _ => false
  let afterDot := match r1 with
    | '.' :: r => r
    | _ => r1
  let fp := if hasDot then afterDot.takeWhile isDigit else []
  let r2 := if hasDot then afterDot.dropWhile isDigit else r1
  let mant : ℕ := digitsVal ip * 10 ^ fp.length + digitsVal fp
  match r2 with
  | 'e' :: r3 | 'E' :: r3 =>
      let eSign : ℤ := match r3 with
        | '-' :: _ => -1
        | _ => 1
      let r4 := match r3 with
        | '-' :: r => r
        | '+' :: r => r
        | _ => r3
      let ed := r4.takeWhile isDigit
      let r5 := r4.dropWhile isDigit
      if ed = [] then Except.error "SyntaxError: invalid decimal literal"
      else Except.ok (⟨mant, fp.length, eSign * (digitsVal ed : ℤ), true⟩, r5)
  | _ =>
      if !hasDot && ip.length > 1 && ip.head? = some '0' && ip.any (fun c => c ≠ '0') then
        Except.error "SyntaxError: leading zeros in decimal integer literals are not permitted"
      else Except.ok (⟨mant, fp.length, 0, hasDot⟩, r2)

/-- Tokenizer (fueled; the fuel is the input length, and every step
consumes at least one character).  Python identifiers may contain digits
after the first character; the model scans letter-only names, which makes
such inputs parse errors here where Python reports a NameError instead —
both are errors inside the guarded `eval`. -/
def tokenizeAux : Nat → List Char → Except String (List Token)
  | _, [] => Except.ok []
  | 0, _ => Except.error "tokenizer fuel exhausted"
  | n + 1, c :: cs =>
      if isDigit c then do
        let (l, rest) ← scanNumber (c :: cs)
        let ts ← tokenizeAux n rest
        Except.ok (.num l :: ts)
      else if isAsciiAlpha c then
        let run := (c :: cs).takeWhile isAsciiAlpha
        let rest := (c :: cs).dropWhile isAsciiAlpha
        do
          let ts ← tokenizeAux n rest
          Except.ok (.name ⟨run⟩ :: ts)
      else if c = '.' then
        match cs with
        | d :: _ =>
            if isDigit d then do
              let (l, rest) ← scanNumber (c :: cs)
              let ts ← tokenizeAux n rest
              Except.ok (.num l :: ts)
            else do
              let ts ← tokenizeAux n cs
              Except.ok (.dot :: ts)
        | [] => Except.ok [.dot]
      else if c = '*' then
        match cs with
        | '*' :: r => do
            let ts ← tokenizeAux n r
            Except.ok (.dstar :: ts)
        | _ => do
            let ts ← tokenizeAux n cs
            Except.ok (.star :: ts)
      else if c = '/' then
        match cs with
        | '/' :: r => do
            let ts ← tokenizeAux n r
            Except.ok (.dslash :: ts)
        | _ => do
            let ts ← tokenizeAux n cs
            Except.ok (.slash :: ts)
      else if c = '+' then do
        let ts ← tokenizeAux n cs
        Except.ok (.plus :: ts)
      else if c = '-' then do
        let ts ← tokenizeAux n cs
        Except.ok (.minus :: ts)
      else if c = '(' then do
        let ts ← tokenizeAux n cs
        Except.ok (.lparen :: ts)
      else if c = ')' then do
        let ts ← tokenizeAux n cs
        Except.ok (.rparen :: ts)
      else Except.error "SyntaxError: unexpected character"

/-- Tokenize a character list. -/
def tokenize (cs : List Char) : Except String (List Token) :=
  tokenizeAux cs.length cs

/-- Abstract syntax of the reachable Python expression fragment. -/
inductive PyExpr where
  | lit (l : NumLit)
  | name (s : String)
  | attr (e : PyExpr) (field : String)
  | call (f : PyExpr) (arg : PyExpr)
  | neg (e : PyExpr)
  | pos (e : PyExpr)
  | add (a b : PyExpr)
  | sub (a b : PyExpr)
  | mul (a b : PyExpr)
  | div (a b : PyExpr)
  | floordiv (a b : PyExpr)
  | pow (a b : PyExpr)
deriving DecidableEq

mutual

/-- Additive level of the Python expression grammar (fueled). -/
def parseExpr : Nat → List Token → Except String (PyExpr × List Token)
  | 0, _ => Except.error "parse fuel exhausted"
  | n + 1, ts => do
      let (e, r) ← parseTerm n ts
      parseExprLoop n e r

/-- Left-associated chain of `+` and `-`. -/
def parseExprLoop : Nat → PyExpr → List Token → Except String (PyExpr × List Token)
  | 0, _, _ => Except.error "parse fuel exhausted"
  | n + 1, acc, .plus :: r => do
      let (t, r2) ← parseTerm n r
      parseExprLoop n (.add acc t) r2
  | n + 1, acc, .minus :: r => do
      let (t, r2) ← parseTerm n r
      parseExprLoop n (.sub acc t) r2
  | _ + 1, acc, r => Except.ok (acc, r)

/-- Multiplicative level (`*`, `/`, `//`). -/
def parseTerm : Nat → List Token → Except String (PyExpr × List Token)
  | 0, _ => Except.error "parse fuel exhausted"
  | n + 1, ts => do
      let (e, r) ← parseUnary n ts
      parseTermLoop n e r

/-- Left-associated chain of `*`, `/` and `//`. -/
def parseTermLoop : Nat → PyExpr → List Token → Except String (PyExpr × List Token)
  | 0, _, _ => Except.error "parse fuel exhausted"
  | n + 1, acc, .star :: r => do
      let (t, r2) ← parseUnary n r
      parseTermLoop n (.mul acc t) r2
  | n + 1, acc, .slash :: r => do
      let (t, r2) ← parseUnary n r
      parseTermLoop n (.div acc t) r2
  | n + 1, acc, .dslash :: r => do
      let (t, r2) ← parseUnary n r
      parseTermLoop n (.floordiv acc t) r2
  | _ + 1, acc, r => Except.ok (acc, r)

/-- Unary level: in Python `-x ** y` parses as `-(x ** y)` while the
exponent itself admits unary signs. -/
def parseUnary : Nat → List Token → Except String (PyExpr × List Token)
  | 0, _ => Except.error "parse fuel exhausted"
  | n + 1, .minus :: r => do
      let (e, r2) ← parseUnary n r
      Except.ok (.neg e, r2)
  | n + 1, .plus :: r => do
      let (e, r2) ← parseUnary n r
      Except.ok (.pos e, r2)
  | n + 1, ts => parsePower n ts

/-- Power level (`**`, right associative through the unary level). -/
def parsePower : Nat → List Token → Except String (PyExpr × List Token)
  | 0, _ => Except.error "parse fuel exhausted"
  | n + 1, ts => do
      let (b, r) ← parsePrimary n ts
      match r with
      | .dstar :: r2 => do
          let (e, r3) ← parseUnary n r2
          Except.ok (.pow b e, r3)
      | _ => Except.ok (b, r)

/-- Primary level: an atom followed by attribute and call trailers. -/
def parsePrimary : Nat → List Token → Except String (PyExpr × List Token)
  | 0, _ => Except.error "parse fuel exhausted"
  | n + 1, ts => do
      let (a, r) ← parseAtom n ts
      parseTrailers n a r

/-- Attribute access and single-argument calls (the comma character never
reaches the tokenizer, so multi-argument calls cannot occur). -/
def parseTrailers : Nat → PyExpr → List Token → Except String (PyExpr × List Token)
  | 0, _, _ => Except.error "parse fuel exhausted"
  | n + 1, acc, .dot :: r =>
      match r with
      | .name f :: r2 => parseTrailers n (.attr acc f) r2
      | _ => Except.error "SyntaxError: invalid attribute access"
  | n + 1, acc, .lparen :: r => do
      let (arg, r2) ← parseExpr n r
      match r2 with
      | .rparen :: r3 => parseTrailers n (.call acc arg) r3
      | _ => Except.error "SyntaxError: expected closing parenthesis"
  | _ + 1, acc, r => Except.ok (acc, r)

/-- Atom: literal, name or parenthesized expression. -/
def parseAtom : Nat → List Token → Except String (PyExpr × List Token)
  | 0, _ => Except.error "parse fuel exhausted"
  | _ + 1, .num l :: r => Except.ok (.lit l, r)
  | _ + 1, .name s :: r => Except.ok (.name s, r)
  | n + 1, .lparen :: r => do
      let (e, r2) ← parseExpr n r
      match r2 with
      | .rparen :: r3 => Except.ok (e, r3)
      | _ => Except.error "SyntaxError: expected closing parenthesis"
  | _ + 1, _ => Except.error "SyntaxError: invalid syntax"

end

/-- Evaluate an expression to a Python value under the restricted globals
`{"__builtins__": {"abs": abs}, "math": math}` of the source. -/
def evalPyExpr : PyExpr → Except String PyVal
  | .lit l =>
      if l.isFloat then Except.ok (.num (.floatVal (litToFloat l)))
      else Except.ok (.num (.intVal (l.mant : ℤ)))
  | .name s =>
      if s = "math" then Except.ok .mathModule
      else if s = "abs" then Except.ok (.func .abs)
      else Except.error ("NameError: name " ++ s ++ " is not defined")
  | .attr e f => do
      let v ← evalPyExpr e
      match v with
      | .mathModule => mathAttr f
      | _ => Except.error "AttributeError on a non-module value"
  | .call f a => do
      let vf ← evalPyExpr f
      let va ← evalPyExpr a
      match vf with
      | .func g => applyFn g va
      | _ => Except.error "TypeError: object is not callable"
  | .neg e => do
      let v ← evalPyExpr e
      let nv ← asNum v
      Except.ok (.num (negNum nv))
  | .pos e => do
      let v ← evalPyExpr e
      let nv ← asNum v
      Except.ok (.num nv)
  | .add a b => do
      let nx ← asNum (← evalPyExpr a)
      let ny ← asNum (← evalPyExpr b)
      Except.ok (.num (← addNum nx ny))
  | .sub a b => do
      let nx ← asNum (← evalPyExpr a)
      let ny ← asNum (← evalPyExpr b)
      Except.ok (.num (← subNum nx ny))
  | .mul a b => do
      let nx ← asNum (← evalPyExpr a)
      let ny ← asNum (← evalPyExpr b)
      Except.ok (.num (← mulNum nx ny))
  | .div a b => do
      let nx ← asNum (← evalPyExpr a)
      let ny ← asNum (← evalPyExpr b)
      Except.ok (.num (← divNum nx ny))
  | .floordiv a b => do
      let nx ← asNum (← evalPyExpr a)
      let ny ← asNum (← evalPyExpr b)
      Except.ok (.num (← floordivNum nx ny))
  | .pow a b => do
      let nx ← asNum (← evalPyExpr a)
      let ny ← asNum (← evalPyExpr b)
      Except.ok (.num (← powNum nx ny))

/-- Model of `float(result)` applied to the value of the guarded `eval`. -/
def pyFloatFn : PyVal → Except String PyFloat
  | .num nv => numToFloat nv
  | _ => Except.error "TypeError: float() argument must be a number"

/-- Model of `eval(safe_expr, allowed_globals, {})` followed by
`float(result)`:  tokenize, parse a single expression, evaluate, convert. -/
def pyEval (s : String) : Except String PyFloat := do
  let ts ← tokenize s.data
  let (e, r) ← parseExpr (16 * ts.length + 16) ts
  match r with
  | [] => do
      let v ← evalPyExpr e
      pyFloatFn v
  | _ => Except.error "SyntaxError: invalid syntax"

/-- The function-name substitution step of `safe_eval_expression`: every
allowed function name occurring in the cleaned string (except `abs`) is
textually replaced by its `math.`-qualified form.  The source iterates a
Python set, whose order is fixed within a process but unspecified; the
model fixes the listing order (no claim below depends on the order). -/
def applyReplacements (clean : String) : String :=
  allowedFunctions.foldl
    (fun safe func =>
      if containsSubstr clean func && (func != "abs") then
        strReplace safe func ("math." ++ func)
      else safe)
    clean

/-- Shallow embedding of `safe_eval_expression` from the source: strip
spaces, check every character against the allowlist (any alphabetic
character passes), substitute function names, then evaluate with the
restricted globals, wrapping every evaluation failure into the single
"Invalid expression" error. -/
def safe_eval_expression (expression : String) : Except String PyFloat :=
  let clean := stripSpaces expression
  if !(clean.data.all (fun c => allowedChars.contains c || isAsciiAlpha c)) then
    Except.error "Expression contains invalid characters"
  else
    match pyEval (applyReplacements clean) with
    | Except.ok v => Except.ok v
    | Except.error e => Except.error ("Invalid expression: " ++ e)

/-- Reduction of a successful monadic bind on `Except` (used to evaluate
the embedded pipeline on concrete inputs). -/
@[simp] theorem except_bind_ok {ε α β : Type} (a : α) (f : α → Except ε β) :
    (Except.ok a >>= f) = f a := rfl

/-- Reduction of a failed monadic bind on `Except`. -/
@[simp] theorem except_bind_error {ε α β : Type} (e : ε) (f : α → Except ε β) :
    ((Except.error e : Except ε α) >>= f) = Except.error e := rfl

/-- Reduction of `pure` on `Except`. -/
@[simp] theorem except_pure_eq {ε α : Type} (a : α) :
    (pure a : Except ε α) = Except.ok a := rfl

instance {ε α : Type} [DecidableEq ε] [DecidableEq α] : DecidableEq (Except ε α) := fun a b =>
  match a, b with
  | .ok x, .ok y =>
      if h : x = y then isTrue (by rw [h]) else isFalse (by intro hc; cases hc; exact h rfl)
  | .error x, .error y =>
      if h : x = y then isTrue (by rw [h]) else isFalse (by intro hc; cases hc; exact h rfl)
  | .ok _, .error _ => isFalse (by intro hc; cases hc)
  | .error _, .ok _ => isFalse (by intro hc; cases hc)

set_option maxRecDepth 4000 in
example : safe_eval_expression "2 + 3" = Except.ok (.finite 5) := by decide

example : safe_eval_expression ";" = Except.error "Expression contains invalid characters" := by decide

/-- Shallow embedding of `convert_temperature` from the source: pivot
through Celsius, matching unit codes case-insensitively; any other code
falls through to the Celsius branch. -/
def convert_temperature (value : ℚ) (from_unit to_unit : String) : ℚ :=
  let celsius :=
    if pyLower from_unit = "f" then (value - 32) * 5 / 9
    else if pyLower from_unit = "k" then value - 273.15
    else value
  if pyLower to_unit = "f" then celsius * 9 / 5 + 32
  else if pyLower to_unit = "k" then celsius + 273.15
  else celsius

/-- Written from the specification wording: conversion of the input value
to the Celsius pivot. -/
def spec_to_celsius (v : ℚ) (u : String) : ℚ :=
  if pyLower u = "f" then (v - 32) * 5 / 9
  else if pyLower u = "k" then v - 273.15
  else v

/-- Written from the specification wording: conversion from the Celsius
pivot to the target unit. -/
def spec_from_celsius (c : ℚ) (u : String) : ℚ :=
  if pyLower u = "f" then c * 9 / 5 + 32
  else if pyLower u = "k" then c + 273.15
  else c

/-- Structured result of `convert_units`, mirroring the source model. -/
structure UnitConversionResult where
  original_value : ℚ
  original_unit : String
  converted_value : ℚ
  target_unit : String
  conversion_type : String
deriving DecidableEq

/-- Length conversion factors to millimeters, from the source. -/
def lengthTable : List (String × ℚ) :=
  [("mm", 1), ("cm", 10), ("m", 1000), ("km", 1000000),
   ("in", 25.4), ("ft", 304.8), ("yd", 914.4), ("mi", 1609344)]

/-- Weight conversion factors to grams, from the source. -/
def weightTable : List (String × ℚ) :=
  [("g", 1), ("kg", 1000), ("oz", 28.35), ("lb", 453.59)]

/-- The `conversions` dictionary lookup (`conversions.get(unit_type)`),
which matches the unit type case-sensitively. -/
def conversionsTable (unit_type : String) : Option (List (String × ℚ)) :=
  if unit_type = "length" then some lengthTable
  else if unit_type = "weight" then some weightTable
  else none

/-- Association-list lookup (`conversion_table.get(unit.lower())`). -/
def assocLookup (k : String) : List (String × ℚ) → Option ℚ
  | [] => none
  | (a, v) :: r => if a = k then some v else assocLookup k r

/-- Shallow embedding of `convert_units` from the source: temperature is
dispatched to the pivot conversion; other unit types go through the factor
tables, with unit symbols lowercased and the unit type matched exactly. -/
def convert_units (value : ℚ) (from_unit to_unit unit_type : String) :
    Except String UnitConversionResult :=
  if unit_type = "temperature" then
    Except.ok ⟨value, from_unit, convert_temperature value from_unit to_unit, to_unit, unit_type⟩
  else
    match conversionsTable unit_type with
    | none =>
        Except.error ("Unknown unit type " ++ unit_type ++ ". Available: length, weight, temperature")
    | some table =>
        match assocLookup (pyLower from_unit) table with
        | none => Except.error ("Unknown " ++ unit_type ++ " unit " ++ from_unit)
        | some from_factor =>
            match assocLookup (pyLower to_unit) table with
            | none => Except.error ("Unknown " ++ unit_type ++ " unit " ++ to_unit)
            | some to_factor =>
                Except.ok ⟨value, from_unit, value * from_factor / to_factor, to_unit, unit_type⟩

/-- Whether a unit symbol is valid for a unit type (the three temperature
codes, or a key of the type's factor table), case-insensitively. -/
def validUnit (unit_type unit : String) : Bool :=
  if unit_type = "temperature" then (["c", "f", "k"] : List String).contains (pyLower unit)
  else
    match conversionsTable unit_type with
    | some t => (assocLookup (pyLower unit) t).isSome
    | none => false

/-- Result value of a statistics operation: a rational, or the square root
of a rational (`std_dev` on two or more points; its exact value is
irrational in general and is represented symbolically). -/
inductive StatValue where
  | rat (q : ℚ)
  | sqrtOf (q : ℚ)
deriving DecidableEq

/-- Structured result of the `statistics` tool, mirroring the source. -/
structure StatisticsResult where
  operation : String
  input_data : List ℚ
  result : StatValue
  count : ℕ
deriving DecidableEq

/-- Python `statistics.mean` (exact rational model). -/
def pyMean (xs : List ℚ) : ℚ := xs.sum / xs.length

/-- Insertion step of sorting (Python `sorted` is a stable sort; on
rationals stability is irrelevant). -/
def insertSorted (x : ℚ) : List ℚ → List ℚ
  | [] => [x]
  | y :: r => if x ≤ y then x :: y :: r else y :: insertSorted x r

/-- Sort a list of rationals ascending. -/
def sortQ (xs : List ℚ) : List ℚ := xs.foldr insertSorted []

/-- Python `statistics.median`: middle element for odd length, average of
the two middle elements for even length. -/
def pyMedian (xs : List ℚ) : ℚ :=
  let s := sortQ xs
  let n := s.length
  if n % 2 = 1 then s.getD (n / 2) 0
  else (s.getD (n / 2 - 1) 0 + s.getD (n / 2) 0) / 2

/-- Multiplicity of a value in the data. -/
def countQ (xs : List ℚ) (v : ℚ) : ℕ := xs.count v

/-- First occurrences of the distinct values, in data order (the insertion
order of `collections.Counter`); fueled for definitional reduction. -/
def dedupFirstAux : Nat → List ℚ → List ℚ
  | _, [] => []
  | 0, _ => []
  | n + 1, x :: r => x :: dedupFirstAux n (r.filter (fun y => y != x))

/-- First occurrences of the distinct values, in data order. -/
def dedupFirst (xs : List ℚ) : List ℚ := dedupFirstAux xs.length xs

/-- Python `statistics.mode` (3.8 and later): the first value of maximal
multiplicity in data order, via `Counter(data).most_common(1)`; `none`
only on empty data. -/
def pyMode (xs : List ℚ) : Option ℚ :=
  match dedupFirst xs with
  | [] => none
  | x :: r => some (r.foldl (fun best y => if countQ xs best < countQ xs y then y else best) x)

/-- Python `statistics.variance` (sample variance, exact rational model;
only applied for two or more points). -/
def pyVariance (xs : List ℚ) : ℚ :=
  let m := pyMean xs
  (xs.map (fun x => (x - m) ^ 2)).sum / ((xs.length : ℚ) - 1)

/-- Shallow embedding of the `statistics` tool from the source: empty
input is rejected first, then the operation name is dispatched; `std_dev`
and `variance` return 0 for a single data point. -/
def statistics (numbers : List ℚ) (operation : String) : Except String StatisticsResult :=
  if numbers.isEmpty then Except.error "Cannot calculate statistics on empty list"
  else if operation = "mean" then
    Except.ok ⟨operation, numbers, .rat (pyMean numbers), numbers.length⟩
  else if operation = "median" then
    Except.ok ⟨operation, numbers, .rat (pyMedian numbers), numbers.length⟩
  else if operation = "mode" then
    match pyMode numbers with
    | some m => Except.ok ⟨operation, numbers, .rat m, numbers.length⟩
    | none => Except.error "StatisticsError: no mode for empty data"
  else if operation = "std_dev" then
    Except.ok ⟨operation, numbers,
      if 1 < numbers.length then .sqrtOf (pyVariance numbers) else .rat 0, numbers.length⟩
  else if operation = "variance" then
    Except.ok ⟨operation, numbers,
      if 1 < numbers.length then .rat (pyVariance numbers) else .rat 0, numbers.length⟩
  else
    Except.error ("Unknown operation " ++ operation ++
      ". Available: mean, median, mode, std_dev, variance")

/-- The result field of a statistics call. -/
def statResult (r : Except String StatisticsResult) : Except String StatValue :=
  r.map (fun x => x.result)

/-- A session history entry, modelling the dictionary appended by the
`calculate` tool. -/
structure HistoryEntry where
  typ : String
  expression : String
  result : PyFloat
  timestamp : String
deriving DecidableEq

/-- Structured result of the `calculate` tool, mirroring the source. -/
structure CalculationResult where
  expression : String
  result : PyFloat
  timestamp : String
deriving DecidableEq

/-- Shallow embedding of the `calculate` tool as a state transformer on
the session history: evaluation runs first, so a raised error propagates
before the history append; the timestamp is an input here because the
source reads the clock. -/
def calculateRun (expression : String) (timestamp : String) (history : List HistoryEntry) :
    Except String CalculationResult × List HistoryEntry :=
  match safe_eval_expression expression with
  | Except.error e => (Except.error e, history)
  | Except.ok r =>
      (Except.ok ⟨expression, r, timestamp⟩,
       history ++ [⟨"calculation", expression, r, timestamp⟩])

/-- Rendering of a float into the history text.  Python `repr` is modelled
exactly for integral floats (as appear in the claims); other rationals are
rendered as fractions, and the non-finite values by their Python names. -/
def pyReprFloat : PyFloat → String
  | .finite q =>
      if q.den = 1 then toString q.num ++ ".0"
      else toString q.num ++ "/" ++ toString q.den
  | .inf => "inf"
  | .ninf => "-inf"
  | .nan => "nan"

/-- Python `history[-10:]` (for the bound 10). -/
def lastSlice (n : ℕ) (l : List HistoryEntry) : List HistoryEntry := l.drop (l.length - n)

/-- The numbered history lines, one per entry, in the order given. -/
def renderEntries : List HistoryEntry → ℕ → String
  | [], _ => ""
  | e :: r, i =>
      toString i ++ ". " ++ e.expression ++ " = " ++ pyReprFloat e.result ++
        " (at " ++ e.timestamp ++ ")
" ++ renderEntries r (i + 1)

/-- Shallow embedding of the `history` resource from the source: the fixed
message on an empty history, otherwise a header, the lines of
`history[-10:]` in their stored (chronological) order, and a trailing
count of the older records when more than ten exist. -/
def get_calculation_history (history : List HistoryEntry) : String :=
  if history.isEmpty then "No calculations performed yet in this session."
  else
    "Calculation History:

" ++ renderEntries (lastSlice 10 history) 1 ++
      (if 10 < history.length then
        "
... and " ++ toString (history.length - 10) ++ " more calculations"
      else "")

/-- Written from the claim wording: the same rendering but with the last
`min n 10` records in most-recent-first order. -/
def claimedHistoryRender (history : List HistoryEntry) : String :=
  if history.isEmpty then "No calculations performed yet in this session."
  else
    "Calculation History:

" ++ renderEntries (history.reverse.take 10) 1 ++
      (if 10 < history.length then
        "
... and " ++ toString (history.length - 10) ++ " more calculations"
      else "")

/-- Written from the amended claim wording: the last `min n 10` records in
chronological order (oldest of the window first). -/
def chronoHistoryRender (history : List HistoryEntry) : String :=
  if history.isEmpty then "No calculations performed yet in this session."
  else
    "Calculation History:

" ++ renderEntries (history.reverse.take 10).reverse 1 ++
      (if 10 < history.length then
        "
... and " ++ toString (history.length - 10) ++ " more calculations"
      else "")

/-- The source temperature conversion is definitionally the spec's pivot
composition. -/
theorem convert_temperature_eq_spec (v : ℚ) (fu tu : String) :
    convert_temperature v fu tu = spec_from_celsius (spec_to_celsius v fu) tu := rfl

/-- Converting to a unit and reading it back to Celsius is the identity,
whatever the unit code. -/
theorem spec_to_from_celsius (c : ℚ) (u : String) :
    spec_to_celsius (spec_from_celsius c u) u = c := by
  unfold spec_to_celsius spec_from_celsius
  by_cases hf : pyLower u = "f"
  · rw [hf]
    norm_num
  · by_cases hk : pyLower u = "k"
    · rw [hk]
      norm_num +decide
    · simp [hf, hk]

/-- Converting from a unit to Celsius and back is the identity, whatever
the unit code. -/
theorem spec_from_to_celsius (v : ℚ) (u : String) :
    spec_from_celsius (spec_to_celsius v u) u = v := by
  unfold spec_to_celsius spec_from_celsius
  by_cases hf : pyLower u = "f"
  · rw [hf]
    norm_num
  · by_cases hk : pyLower u = "k"
    · rw [hk]
      norm_num +decide
    · simp [hf, hk]

/-- A successful association lookup returns one of the stored values. -/
theorem assocLookup_mem_values (k : String) (q : ℚ) :
    ∀ l : List (String × ℚ), assocLookup k l = some q → q ∈ l.map Prod.snd := by
  intro l
  induction l with
  | nil => intro h; simp [assocLookup] at h
  | cons p r ih =>
      obtain ⟨a, w⟩ := p
      intro h
      simp only [assocLookup] at h
      by_cases hak : a = k
      · rw [if_pos hak] at h
        injection h with h
        simp [h]
      · rw [if_neg hak] at h
        simp [ih h]

/-- Every factor in the length table is nonzero. -/
theorem lengthTable_values_nonzero : ∀ q ∈ lengthTable.map Prod.snd, q ≠ 0 := by
  intro q hq
  simp [lengthTable] at hq
  rcases hq with rfl | rfl | rfl | rfl | rfl | rfl | rfl | rfl <;> norm_num

/-- Every factor in the weight table is nonzero. -/
theorem weightTable_values_nonzero : ∀ q ∈ weightTable.map Prod.snd, q ≠ 0 := by
  intro q hq
  simp [weightTable] at hq
  rcases hq with rfl | rfl | rfl | rfl <;> norm_num

/-- Factors looked up through the conversions dictionary are nonzero. -/
theorem conversions_factor_nonzero (ut : String) (t : List (String × ℚ))
    (ht : conversionsTable ut = some t) (k : String) (q : ℚ)
    (hl : assocLookup k t = some q) : q ≠ 0 := by
  unfold conversionsTable at ht
  by_cases h1 : ut = "length"
  · rw [if_pos h1] at ht
    injection ht with ht
    subst ht
    exact lengthTable_values_nonzero q (assocLookup_mem_values k q _ hl)
  · rw [if_neg h1] at ht
    by_cases h2 : ut = "weight"
    · rw [if_pos h2] at ht
      injection ht with ht
      subst ht
      exact weightTable_values_nonzero q (assocLookup_mem_values k q _ hl)
    · rw [if_neg h2] at ht
      cases ht

/-- The fold used by the mode model picks an element of the list headed by
its starting value. -/
theorem argmax_foldl_mem (f : ℚ → ℕ) :
    ∀ (r : List ℚ) (x : ℚ),
      r.foldl (fun best y => if f best < f y then y else best) x ∈ x :: r := by
  intro r
  induction r with
  | nil => intro x; simp
  | cons a r ih =>
      intro x
      simp only [List.foldl_cons]
      by_cases h : f x < f a
      · rw [if_pos h]
        exact List.mem_cons_of_mem x (ih a)
      · rw [if_neg h]
        have := ih x
        simp only [List.mem_cons] at this ⊢
        tauto

/-- The fold used by the mode model maximizes the count. -/
theorem argmax_foldl_le (f : ℚ → ℕ) :
    ∀ (r : List ℚ) (x y : ℚ), y ∈ x :: r →
      f y ≤ f (r.foldl (fun best z => if f best < f z then z else best) x) := by
  intro r
  induction r with
  | nil =>
      intro x y hy
      simp only [List.mem_cons, List.not_mem_nil, or_false] at hy
      subst hy
      simp
  | cons a r ih =>
      intro x y hy
      simp only [List.foldl_cons]
      by_cases h : f x < f a
      · rw [if_pos h]
        rcases List.mem_cons.mp hy with hxy | hy2
        · rw [hxy]
          exact le_trans (le_of_lt h) (ih a a (List.mem_cons_self a r))
        · exact ih a y hy2
      · rw [if_neg h]
        rcases List.mem_cons.mp hy with hxy | hy2
        · rw [hxy]
          exact ih x x (List.mem_cons_self x r)
        · rcases List.mem_cons.mp hy2 with hya | hy3
          · rw [hya]
            exact le_trans (Nat.le_of_not_lt h) (ih x x (List.mem_cons_self x r))
          · exact ih x y (List.mem_cons.mpr (Or.inr hy3))

/-- With enough fuel, deduplication preserves membership. -/
theorem mem_dedupFirstAux :
    ∀ (n : ℕ) (l : List ℚ) (a : ℚ), l.length ≤ n → (a ∈ dedupFirstAux n l ↔ a ∈ l) := by
  intro n
  induction n with
  | zero =>
      intro l a h
      have : l = [] := List.eq_nil_of_length_eq_zero (Nat.le_zero.mp h)
      subst this
      simp [dedupFirstAux]
  | succ n ih =>
      intro l a h
      cases l with
      | nil => simp [dedupFirstAux]
      | cons x r =>
          simp only [dedupFirstAux, List.mem_cons]
          have hlen : (r.filter (fun y => y != x)).length ≤ n :=
            le_trans (List.length_filter_le _ _) (Nat.succ_le_succ_iff.mp h)
          rw [ih _ a hlen]
          constructor
          · rintro (rfl | hm)
            · exact Or.inl rfl
            · exact Or.inr (List.mem_of_mem_filter hm)
          · rintro (rfl | hm)
            · exact Or.inl rfl
            · by_cases hax : a = x
              · exact Or.inl hax
              · exact Or.inr (List.mem_filter.mpr ⟨hm, by simp [hax]⟩)

/-- Deduplication preserves membership. -/
theorem mem_dedupFirst (xs : List ℚ) (a : ℚ) : a ∈ dedupFirst xs ↔ a ∈ xs :=
  mem_dedupFirstAux xs.length xs a le_rfl

/-- The running best of the argmax fold never decreases in count. -/
theorem argmax_step_le (f : ℚ → ℕ) (b y : ℚ) :
    f b ≤ f (if f b < f y then y else b) := by
  by_cases h : f b < f y
  · rw [if_pos h]
    exact le_of_lt h
  · rw [if_neg h]

/-- Dropping the occurrences of a value that cannot beat the running best
does not change the argmax fold (the fold keeps the first among ties, and
its best only grows). -/
theorem argmax_foldl_filter (f : ℚ → ℕ) (x : ℚ) :
    ∀ (r : List ℚ) (b : ℚ), f x ≤ f b →
      (r.filter (fun y => y != x)).foldl (fun best z => if f best < f z then z else best) b =
        r.foldl (fun best z => if f best < f z then z else best) b := by
  intro r
  induction r with
  | nil => intro b _; rfl
  | cons a r ih =>
      intro b hb
      by_cases hax : a = x
      · subst hax
        have hfa : (a != a) = false := by simp
        rw [List.filter_cons, hfa]
        simp only [Bool.false_eq_true, if_false, List.foldl_cons]
        have hstep : (if f b < f a then a else b) = b := if_neg (Nat.not_lt.mpr hb)
        rw [hstep]
        exact ih b hb
      · have hfa : (a != x) = true := by simp [hax]
        rw [List.filter_cons, hfa]
        simp only [if_true, List.foldl_cons]
        exact ih _ (le_trans hb (argmax_step_le f b a))

/-- The argmax fold over the deduplicated data equals the fold over the
raw data: a duplicate can never beat the running best, because its first
occurrence was already dominated. -/
theorem argmax_foldl_dedup (f : ℚ → ℕ) :
    ∀ (m : ℕ) (u : List ℚ) (b : ℚ), u.length ≤ m →
      (dedupFirstAux m u).foldl (fun best z => if f best < f z then z else best) b =
        u.foldl (fun best z => if f best < f z then z else best) b := by
  intro m
  induction m with
  | zero =>
      intro u b h
      have : u = [] := List.eq_nil_of_length_eq_zero (Nat.le_zero.mp h)
      subst this
      rfl
  | succ m ih =>
      intro u b h
      cases u with
      | nil => rfl
      | cons x r =>
          simp only [dedupFirstAux, List.foldl_cons]
          rw [ih _ _ (le_trans (List.length_filter_le _ _) (Nat.succ_le_succ_iff.mp h))]
          refine argmax_foldl_filter f x r _ ?_
          by_cases hbx : f b < f x
          · rw [if_pos hbx]
          · rw [if_neg hbx]
            exact Nat.le_of_not_lt hbx

/-- The mode model equals the argmax fold over the raw data. -/
theorem pyMode_eq_fold (x : ℚ) (r : List ℚ) :
    pyMode (x :: r) =
      some (r.foldl
        (fun best z => if countQ (x :: r) best < countQ (x :: r) z then z else best) x) := by
  have h1 : pyMode (x :: r) =
      some ((dedupFirstAux r.length (r.filter (fun y => y != x))).foldl
        (fun best z => if countQ (x :: r) best < countQ (x :: r) z then z else best) x) := rfl
  rw [h1,
    argmax_foldl_dedup (countQ (x :: r)) r.length _ x (List.length_filter_le _ _),
    argmax_foldl_filter (countQ (x :: r)) x r x (le_refl _)]

/-- The argmax fold result splits its input: everything strictly before
the returned element has a strictly smaller count, which is exactly
"the first value of maximal multiplicity in data order". -/
theorem argmax_foldl_first_split (f : ℚ → ℕ) :
    ∀ (r : List ℚ) (x : ℚ), ∃ l t,
      x :: r = l ++ (r.foldl (fun b z => if f b < f z then z else b) x) :: t ∧
      ∀ y ∈ l, f y < f (r.foldl (fun b z => if f b < f z then z else b) x) := by
  intro r
  induction r with
  | nil => exact fun x => ⟨[], [], rfl, by simp⟩
  | cons a r ih =>
      intro x
      simp only [List.foldl_cons]
      by_cases h : f x < f a
      · rw [if_pos h]
        obtain ⟨l, t, heq, hlt⟩ := ih a
        refine ⟨x :: l, t, ?_, ?_⟩
        · rw [List.cons_append, ← heq]
        · intro y hy
          rcases List.mem_cons.mp hy with hyx | hyl
          · rw [hyx]
            exact lt_of_lt_of_le h (argmax_foldl_le f r a a (List.mem_cons_self a r))
          · exact hlt y hyl
      · rw [if_neg h]
        obtain ⟨l, t, heq, hlt⟩ := ih x
        cases l with
        | nil =>
            simp only [List.nil_append] at heq
            injection heq with h1 h2
            refine ⟨[], a :: r, ?_, by simp⟩
            simp only [List.nil_append]
            rw [← h1]
        | cons x0 l2 =>
            rw [List.cons_append] at heq
            injection heq with h1 h2
            have hxbest : f x < f (r.foldl (fun b z => if f b < f z then z else b) x) := by
              apply hlt
              rw [h1]
              exact List.mem_cons_self x0 l2
            refine ⟨x :: a :: l2, t, ?_, ?_⟩
            · rw [List.cons_append, List.cons_append, ← h2]
            · intro y hy
              rcases List.mem_cons.mp hy with hyx | hy2
              · rw [hyx]
                exact hxbest
              · rcases List.mem_cons.mp hy2 with hya | hy3
                · rw [hya]
                  exact lt_of_le_of_lt (Nat.le_of_not_lt h) hxbest
                · exact hlt y (List.mem_cons_of_mem x0 hy3)

/-- A list that splits around an element satisfying the predicate, with
everything before it failing the predicate, finds exactly that element. -/
theorem find?_eq_first_of (P : ℚ → Bool) (xs : List ℚ) (l t : List ℚ) (v : ℚ)
    (heq : xs = l ++ v :: t) (hl : ∀ y ∈ l, P y = false) (hv : P v = true) :
    xs.find? P = some v := by
  subst heq
  induction l with
  | nil => exact List.find?_cons_of_pos t hv
  | cons a l ih =>
      rw [List.cons_append,
        List.find?_cons_of_neg _ (by rw [hl a (List.mem_cons_self a l)]; exact Bool.false_ne_true)]
      exact ih fun y hy => hl y (List.mem_cons_of_mem a hy)

/-- Written from the amended claim wording: the first value in data order
whose multiplicity in the data is maximal. -/
def firstMaxOf (xs : List ℚ) : Option ℚ :=
  xs.find? (fun y => xs.all (fun z => countQ xs z ≤ countQ xs y))

/-- On nonempty data the mode model returns exactly the first value of
maximal multiplicity in data order: it is a member, its multiplicity is
maximal, and it is what the first-maximum search finds. -/
theorem pyMode_first (xs : List ℚ) (h : xs ≠ []) :
    ∃ v, pyMode xs = some v ∧ firstMaxOf xs = some v ∧ v ∈ xs ∧
      ∀ y ∈ xs, countQ xs y ≤ countQ xs v := by
  cases xs with
  | nil => exact absurd rfl h
  | cons x r =>
      have hmode := pyMode_eq_fold x r
      have hmem : r.foldl
          (fun best z => if countQ (x :: r) best < countQ (x :: r) z then z else best) x ∈
          x :: r :=
        argmax_foldl_mem (countQ (x :: r)) r x
      have hmax : ∀ y ∈ x :: r,
          countQ (x :: r) y ≤ countQ (x :: r)
            (r.foldl
              (fun best z => if countQ (x :: r) best < countQ (x :: r) z then z else best) x) :=
        fun y hy => argmax_foldl_le (countQ (x :: r)) r x y hy
      obtain ⟨l, t, heq, hlt⟩ := argmax_foldl_first_split (countQ (x :: r)) r x
      refine ⟨_, hmode, ?_, hmem, hmax⟩
      refine find?_eq_first_of _ _ l t _ heq ?_ ?_
      · intro y hy
        cases hP : (x :: r).all
            (fun z => decide (countQ (x :: r) z ≤ countQ (x :: r) y)) with
        | false => rfl
        | true =>
            exfalso
            exact absurd (of_decide_eq_true (List.all_eq_true.mp hP _ hmem))
              (Nat.not_le.mpr (hlt y hy))
      · rw [List.all_eq_true]
        intro z hz
        exact decide_eq_true (hmax z hz)

/-- The bounded tail slice of the history is the reversed 10-prefix of the
reversed history. -/
theorem lastSlice_eq_reverse_take (n : ℕ) (l : List HistoryEntry) :
    lastSlice n l = (l.reverse.take n).reverse := by
  unfold lastSlice
  rw [show l.drop (l.length - n) = l.rtake n from rfl, List.rtake_eq_reverse_take_reverse]

/-- C1: the spec requires that any maximal alphabetic run not in the
function allowlist causes a rejection before evaluation; the code only
checks characters and substring-replaces function names, so the
identifiers `math` and `factorial` pass validation and the expression
evaluates to 24.0 instead of being rejected. -/
theorem safe_eval_accepts_disallowed_identifier :
    alphaRuns "math.factorial(4)" = ["math", "factorial"] ∧
    (alphaRuns "math.factorial(4)").all (fun r => !(allowedFunctions.contains r)) = true ∧
    safe_eval_expression "math.factorial(4)" = Except.ok (PyFloat.finite 24) :=
  ⟨by decide, by decide, by decide⟩

/-- C2 counterexample: the literal `1e999` overflows to the float
infinity, which `safe_eval_expression` returns as a success, refuting the
claim that every successful result is finite. -/
theorem safe_eval_returns_nonfinite :
    safe_eval_expression "1e999" = Except.ok PyFloat.inf ∧
    PyFloat.isFinite PyFloat.inf = false :=
  ⟨by decide, rfl⟩

/-- C2 amended: every evaluation either returns a float value (possibly
non-finite) or fails, and every failure message is one of the two
categorized ValueError forms of the source. -/
theorem safe_eval_total_and_categorized :
    ∀ s : String,
      ((∃ v, safe_eval_expression s = Except.ok v) ∨
        (∃ m, safe_eval_expression s = Except.error m)) ∧
      (∀ m, safe_eval_expression s = Except.error m →
        m = "Expression contains invalid characters" ∨
        ∃ c, m = "Invalid expression: " ++ c) := by
  intro s
  constructor
  · cases h : safe_eval_expression s with
    | ok v => exact Or.inl ⟨v, rfl⟩
    | error m => exact Or.inr ⟨m, rfl⟩
  · intro m hm
    simp only [safe_eval_expression] at hm
    split at hm
    · injection hm with hm
      exact Or.inl hm.symm
    · split at hm
      · cases hm
      · injection hm with hm
        exact Or.inr ⟨_, hm.symm⟩

/-- C2 amended, witness at the input `;`. -/
theorem safe_eval_total_and_categorized_witness :
    "Expression contains invalid characters" = "Expression contains invalid characters" ∨
    ∃ c, "Expression contains invalid characters" = "Invalid expression: " ++ c :=
  (safe_eval_total_and_categorized ";").2 _ (by decide)

/-- C3 counterexample: on a two-record history the resource renders the
older record first, not most-recent-first as the claim states. -/
theorem history_order_counterexample :
    get_calculation_history
        [⟨"calculation", "1+1", .finite 2, "t1"⟩, ⟨"calculation", "2+2", .finite 4, "t2"⟩] ≠
      claimedHistoryRender
        [⟨"calculation", "1+1", .finite 2, "t1"⟩, ⟨"calculation", "2+2", .finite 4, "t2"⟩] := by
  decide

/-- C3 amended: the resource returns the fixed no-calculations message on
an empty history and otherwise renders exactly the last `min n 10` records
in chronological order (oldest of the window first), with a trailing count
of the older records when more than ten exist. -/
theorem history_renders_last_ten_chronologically :
    ∀ history : List HistoryEntry,
      get_calculation_history history = chronoHistoryRender history := by
  intro h
  unfold get_calculation_history chronoHistoryRender
  rw [lastSlice_eq_reverse_take]

/-- C4: a failed evaluation propagates the error and leaves the history
unchanged; a successful evaluation appends exactly one record. -/
theorem calculate_appends_iff_success :
    ∀ (expression timestamp : String) (history : List HistoryEntry),
      (∀ e, safe_eval_expression expression = Except.error e →
        calculateRun expression timestamp history = (Except.error e, history)) ∧
      (∀ r, safe_eval_expression expression = Except.ok r →
        calculateRun expression timestamp history =
          (Except.ok ⟨expression, r, timestamp⟩,
            history ++ [⟨"calculation", expression, r, timestamp⟩])) := by
  intro s ts h
  constructor
  · intro e he
    simp [calculateRun, he]
  · intro r hr
    simp [calculateRun, hr]

/-- C4 witness: a rejected input leaves the history empty; a successful
input appends exactly its record. -/
theorem calculate_appends_iff_success_witness :
    calculateRun ";" "t0" [] = (Except.error "Expression contains invalid characters", []) ∧
    calculateRun "2+3" "t0" [] =
      (Except.ok ⟨"2+3", .finite 5, "t0"⟩, [⟨"calculation", "2+3", .finite 5, "t0"⟩]) :=
  ⟨(calculate_appends_iff_success ";" "t0" []).1 _ (by decide),
   (calculate_appends_iff_success "2+3" "t0" []).2 _ (by decide)⟩

/-- C5 counterexample: on `[1, 1, 2, 2]`, which has no unique mode, the
statistics tool succeeds and returns 1 instead of failing. -/
theorem statistics_mode_tie_counterexample :
    statResult (statistics [1, 1, 2, 2] "mode") = Except.ok (.rat 1) := by decide

/-- C5 amended: on any nonempty data the mode operation succeeds and
returns the first value of maximal multiplicity in data order (Python 3.8
and later return it instead of raising): the returned value is a member,
its multiplicity is maximal, and it is exactly what the first-maximum
search over the data finds. -/
theorem statistics_mode_tie_amended :
    ∀ xs : List ℚ, xs ≠ [] →
      ∃ v, statResult (statistics xs "mode") = Except.ok (.rat v) ∧
        firstMaxOf xs = some v ∧ v ∈ xs ∧
        ∀ y ∈ xs, countQ xs y ≤ countQ xs v := by
  intro xs h
  obtain ⟨v, hv, hfirst, hmem, hmax⟩ := pyMode_first xs h
  refine ⟨v, ?_, hfirst, hmem, hmax⟩
  have hne : xs.isEmpty = false := by
    cases xs with
    | nil => exact absurd rfl h
    | cons a r => rfl
  simp +decide [statistics, statResult, hne, hv, Except.map]

/-- C5 amended, witness on the tied data `[2, 1, 1, 2]`, whose first
maximal value in data order (2) differs from its smallest one. -/
theorem statistics_mode_tie_amended_witness :
    ([2, 1, 1, 2] : List ℚ) ≠ [] ∧
    ∃ v, statResult (statistics [2, 1, 1, 2] "mode") = Except.ok (.rat v) ∧
      firstMaxOf [2, 1, 1, 2] = some v ∧ v ∈ ([2, 1, 1, 2] : List ℚ) ∧
      ∀ y ∈ ([2, 1, 1, 2] : List ℚ), countQ [2, 1, 1, 2] y ≤ countQ [2, 1, 1, 2] v :=
  ⟨by decide, statistics_mode_tie_amended [2, 1, 1, 2] (by decide)⟩

example : statResult (statistics [2, 1, 1, 2] "mode") = Except.ok (.rat 2) ∧
    firstMaxOf [2, 1, 1, 2] = some 2 := by decide

/-- C6: the temperature conversion is the spec's Celsius-pivot
composition, unknown codes on both sides fall through to Celsius with no
error, and the four quoted values hold exactly. -/
theorem convert_temperature_spec_conformance :
    (∀ (v : ℚ) (fu tu : String),
      convert_temperature v fu tu = spec_from_celsius (spec_to_celsius v fu) tu) ∧
    (∀ (v : ℚ) (fu tu : String),
      pyLower fu ≠ "f" → pyLower fu ≠ "k" → pyLower tu ≠ "f" → pyLower tu ≠ "k" →
      convert_temperature v fu tu = v) ∧
    convert_temperature 0 "c" "f" = 32 ∧
    convert_temperature 100 "c" "f" = 212 ∧
    convert_temperature 32 "f" "c" = 0 ∧
    convert_temperature 0 "c" "k" = 273.15 := by
  refine ⟨fun v fu tu => rfl, fun v fu tu h1 h2 h3 h4 => ?_, ?_, ?_, ?_, ?_⟩
  · simp [convert_temperature, h1, h2, h3, h4]
  · norm_num +decide [convert_temperature, pyLower, lowerChar]
  · norm_num +decide [convert_temperature, pyLower, lowerChar]
  · norm_num +decide [convert_temperature, pyLower, lowerChar]
  · norm_num +decide [convert_temperature, pyLower, lowerChar]

/-- C6 witness: unknown unit codes on both sides act as Celsius. -/
theorem convert_temperature_spec_conformance_witness :
    convert_temperature 7 "celsius" "units" = 7 :=
  convert_temperature_spec_conformance.2.1 7 "celsius" "units"
    (by decide) (by decide) (by decide) (by decide)

/-- C7: statistics on an empty list fails with the validation error for
every operation name, and the single-element conventions for std_dev and
variance return 0. -/
theorem statistics_empty_fails_singleton_zero :
    (∀ operation : String,
      statistics [] operation = Except.error "Cannot calculate statistics on empty list") ∧
    (∀ x : ℚ, statResult (statistics [x] "std_dev") = Except.ok (.rat 0) ∧
      statResult (statistics [x] "variance") = Except.ok (.rat 0)) :=
  ⟨fun _ => rfl, fun _ => ⟨rfl, rfl⟩⟩

/-- C8: converting a value between two valid units of one unit type and
back returns the original value exactly (the model uses exact rational
arithmetic, so the floating-point tolerance is met with equality). -/
theorem convert_units_round_trip :
    ∀ (unit_type from_unit to_unit : String) (v : ℚ),
      validUnit unit_type from_unit = true → validUnit unit_type to_unit = true →
      ∃ r1 r2, convert_units v from_unit to_unit unit_type = Except.ok r1 ∧
        convert_units r1.converted_value to_unit from_unit unit_type = Except.ok r2 ∧
        r2.converted_value = v := by
  intro ut fu tu v h1 h2
  by_cases htemp : ut = "temperature"
  · subst htemp
    refine ⟨⟨v, fu, convert_temperature v fu tu, tu, "temperature"⟩,
      ⟨convert_temperature v fu tu, tu,
        convert_temperature (convert_temperature v fu tu) tu fu, fu, "temperature"⟩,
      by simp [convert_units], by simp [convert_units], ?_⟩
    show convert_temperature (convert_temperature v fu tu) tu fu = v
    rw [convert_temperature_eq_spec v fu tu, convert_temperature_eq_spec,
      spec_to_from_celsius, spec_from_to_celsius]
  · unfold validUnit at h1 h2
    rw [if_neg htemp] at h1 h2
    cases htab : conversionsTable ut with
    | none =>
        rw [htab] at h1
        cases h1
    | some table =>
        rw [htab] at h1 h2
        obtain ⟨f, hf⟩ := Option.isSome_iff_exists.mp h1
        obtain ⟨g, hg⟩ := Option.isSome_iff_exists.mp h2
        have hf0 : f ≠ 0 := conversions_factor_nonzero ut table htab _ _ hf
        have hg0 : g ≠ 0 := conversions_factor_nonzero ut table htab _ _ hg
        refine ⟨⟨v, fu, v * f / g, tu, ut⟩, ⟨v * f / g, tu, v * f / g * g / f, fu, ut⟩,
          ?_, ?_, ?_⟩
        · simp [convert_units, htemp, htab, hf, hg]
        · simp [convert_units, htemp, htab, hf, hg]
        · show v * f / g * g / f = v
          field_simp

/-- C8 witness: centimeters to inches and back at 5. -/
theorem convert_units_round_trip_witness :
    validUnit "length" "cm" = true ∧ validUnit "length" "in" = true ∧
    (∃ r1 r2, convert_units 5 "cm" "in" "length" = Except.ok r1 ∧
      convert_units r1.converted_value "in" "cm" "length" = Except.ok r2 ∧
      r2.converted_value = 5) :=
  ⟨by decide, by decide, convert_units_round_trip "length" "cm" "in" 5 (by decide) (by decide)⟩

/-- C9: the evaluator is a pure function of its input text: two
evaluations of the same string yield identical results. -/
theorem safe_eval_deterministic :
    ∀ (s : String) (r1 r2 : Except String PyFloat),
      safe_eval_expression s = r1 → safe_eval_expression s = r2 → r1 = r2 := by
  intro s r1 r2 h1 h2
  rw [← h1, h2]

/-- C9 witness at the input `2+3`. -/
theorem safe_eval_deterministic_witness :
    (Except.ok (PyFloat.finite 5) : Except String PyFloat) = Except.ok (PyFloat.finite 5) :=
  safe_eval_deterministic "2+3" (Except.ok (PyFloat.finite 5)) (Except.ok (PyFloat.finite 5))
    (by decide) (by decide)

/-- C10: the unit type is matched case-sensitively (anything other than
the three lowercase names errors), while unit symbols are lowercased, so
`M` and `KM` convert under the type `length`. -/
theorem convert_units_unknown_type_error :
    (∀ unit_type, unit_type ≠ "temperature" → unit_type ≠ "length" → unit_type ≠ "weight" →
      ∀ (v : ℚ) (from_unit to_unit : String),
        convert_units v from_unit to_unit unit_type =
          Except.error ("Unknown unit type " ++ unit_type ++
            ". Available: length, weight, temperature")) ∧
    convert_units 1 "M" "KM" "length" = Except.ok ⟨1, "M", 1 / 1000, "KM", "length"⟩ := by
  constructor
  · intro ut h1 h2 h3 v fu tu
    simp [convert_units, conversionsTable, h1, h2, h3]
  · norm_num +decide [convert_units, conversionsTable, assocLookup, lengthTable, pyLower, lowerChar]

/-- C10 witness: the capitalized type name `Length` is rejected even
though its unit symbols would be accepted case-insensitively. -/
theorem convert_units_unknown_type_error_witness :
    convert_units 1 "m" "km" "Length" =
      Except.error ("Unknown unit type " ++ "Length" ++
        ". Available: length, weight, temperature") :=
  convert_units_unknown_type_error.1 "Length" (by decide) (by decide) (by decide) 1 "m" "km"

end MathMCP
